import Mathlib

/-!
Verification development for the event-orchestration core of
bilibili_stream_lib: the Monitor (live/offline polling state machine,
monitor.go) and the StreamClient dispatcher (capture lifecycle with
retry/backoff, client.go), shallowly embedded in Lean 4.

Conventions of the embedding:
* Room ids (Go int64) are modelled as `Int`; no arithmetic is performed
  on them, so overflow is irrelevant.
* Go maps guarded by a mutex are modelled as functions updated inside a
  single atomic step, matching the locked critical sections of the code.
* A `context.CancelFunc` entry in a map is modelled by a Boolean
  membership flag (Monitor) or by an explicit task-identity record
  (StreamClient), since the claims are about which tasks exist, not
  about the Go runtime representation of cancellation.
* Channels are bounded queues; the non-blocking `select`/`default` send
  of the Go code becomes a total conditional-enqueue function.
* Durations are natural numbers of nanoseconds (Go `time.Duration`
  values); the float64 arithmetic of `retryWait` is exact at these
  magnitudes, so natural-number arithmetic models it faithfully.
-/

/-- Room identifier (Go `int64`). -/
abbrev RoomID := Int

/-- Metadata for a live room, from api.go `RoomInfo` (the fields the
Monitor reads: `LiveStatus` and `Title`). -/
structure RoomInfo where
  roomID : RoomID
  liveStatus : Int
  title : String

/-- monitor.go: `live := info.LiveStatus == 1`. -/
def isLive (info : RoomInfo) : Bool := info.liveStatus == 1

/-- Event emitted by the Monitor on a live/offline transition
(`RoomEvent{RoomID, Live, Title}`). -/
structure RoomEvent where
  roomID : RoomID
  live : Bool
  title : String
deriving DecidableEq

/-- A subscriber channel: a bounded queue with fixed capacity.  The
buffer holds undelivered events; a non-blocking send succeeds exactly
when the buffer has free capacity. -/
structure EventChan (α : Type) where
  cap : Nat
  buf : List α
deriving DecidableEq

/-- monitor.go: `eventBufSize = 64`. -/
def eventBufSize : Nat := 64

/-- monitor.go `publishEvent`: fan an event out to every subscriber
channel with a non-blocking send (`select`/`default`); a full channel
drops the event for that subscriber only.  Modelled as a total function:
every channel with free capacity gets the event appended, every full
channel is left unchanged, and the producer never waits. -/
def publishEvent (ev : RoomEvent) (subs : List (EventChan RoomEvent)) :
    List (EventChan RoomEvent) :=
  subs.map fun ch =>
    if ch.buf.length < ch.cap then { ch with buf := ch.buf ++ [ev] } else ch

/-- Outcome of one `GetRoomInfo` probe: success with metadata, or a
failure (transient when `cancelled = false`, a cancellation signal when
`cancelled = true`).  Either failure makes `checkRoom` skip the tick. -/
inductive ProbeResult where
  | ok (info : RoomInfo)
  | fail (cancelled : Bool)

/-- State of a Monitor (monitor.go `Monitor`): the `rooms` map
(membership = a registered cancel func / running polling task), the
`status` map (last known live status), the subscriber list, and the
`started`/`parentCtx` flags set by `Watch`. -/
structure Monitor where
  rooms : RoomID → Bool
  status : RoomID → Option Bool
  subs : List (EventChan RoomEvent)
  started : Bool
  hasParentCtx : Bool

/-- monitor.go `NewMonitor`: empty maps, not started. -/
def initialMonitor : Monitor :=
  { rooms := fun _ => false
    status := fun _ => none
    subs := []
    started := false
    hasParentCtx := false }

/-- monitor.go `startRoom`: register a cancel func for the room and
launch its polling goroutine. -/
def Monitor.startRoom (m : Monitor) (id : RoomID) : Monitor :=
  { m with rooms := fun k => if k = id then true else m.rooms k }

/-- monitor.go `Watch`: allocate a subscriber channel of capacity
`eventBufSize`, record the parent context, mark the monitor started,
start a polling task for each given id, and return the channel with a
nil error (the only return path is `return ch, nil`). -/
def Monitor.Watch (m : Monitor) (roomIDs : List RoomID) :
    Except String (Monitor × EventChan RoomEvent) :=
  let ch : EventChan RoomEvent := ⟨eventBufSize, []⟩
  let m₁ : Monitor :=
    { m with subs := m.subs ++ [ch], started := true, hasParentCtx := true }
  Except.ok (roomIDs.foldl Monitor.startRoom m₁, ch)

/-- monitor.go `AddRoom`: return early if the id is already watched;
otherwise start a polling task only when the monitor is started and has
a parent context, and do nothing at all otherwise. -/
def Monitor.AddRoom (m : Monitor) (id : RoomID) : Monitor :=
  if m.rooms id then m
  else if m.started && m.hasParentCtx then m.startRoom id
  else m

/-- monitor.go `RemoveRoom`: if the id is watched, cancel its polling
task and delete both its cancel entry and its last-known status;
otherwise do nothing. -/
def Monitor.RemoveRoom (m : Monitor) (id : RoomID) : Monitor :=
  if m.rooms id then
    { m with
      rooms := fun k => if k = id then false else m.rooms k
      status := fun k => if k = id then none else m.status k }
  else m

/-- monitor.go `checkRoom`: one polling tick.  A failed probe (transient
or cancellation) skips the tick with no event and no state mutation.  A
successful probe records the new status, then emits a `RoomEvent`
unless the status is unchanged from a known baseline, or this is the
first observation and the room is offline.  The returned list is the
argument passed to `publishEvent` (empty, or one event, which is also
fanned out to the subscriber channels of the returned state). -/
def Monitor.checkRoom (m : Monitor) (id : RoomID) (res : ProbeResult) :
    Monitor × List RoomEvent :=
  match res with
  | ProbeResult.fail _ => (m, [])
  | ProbeResult.ok info =>
    let live := isLive info
    let prev := m.status id
    let m₁ : Monitor :=
      { m with status := fun k => if k = id then some live else m.status k }
    match prev with
    | some prevLive =>
      if live == prevLive then (m₁, [])
      else
        let ev : RoomEvent := ⟨id, live, info.title⟩
        ({ m₁ with subs := publishEvent ev m₁.subs }, [ev])
    | none =>
      if live then
        let ev : RoomEvent := ⟨id, live, info.title⟩
        ({ m₁ with subs := publishEvent ev m₁.subs }, [ev])
      else (m₁, [])

/-- monitor.go `pollRoom`, restricted to one room: process a sequence of
probe outcomes tick by tick, threading the Monitor state and
concatenating the emitted events in order. -/
def pollRun (id : RoomID) : Monitor → List ProbeResult → Monitor × List RoomEvent
  | m, [] => (m, [])
  | m, r :: rest =>
    let step := Monitor.checkRoom m id r
    let tail := pollRun id step.1 rest
    (tail.1, step.2 ++ tail.2)

/-- The emission condition as the spec words it: a transition event is
due exactly when the new `isActive` differs from the last recorded
value, except that a first observation (no baseline) emits only when
active.  Stated separately from `Monitor.checkRoom` so the theorem for
C1 compares the code against the spec. -/
def specEmitsTransition (prev : Option Bool) (live : Bool) : Bool :=
  match prev with
  | some p => live != p
  | none => live

/-- client.go: `streamEventBufSize = 64`. -/
def streamEventBufSize : Nat := 64

/-- client.go: `baseRetryDelay = 2 * time.Second`, in nanoseconds. -/
def baseRetryDelay : Nat := 2 * 1000000000

/-- client.go: `maxRetryDelay = 2 * time.Minute`, in nanoseconds. -/
def maxRetryDelay : Nat := 120 * 1000000000

/-- client.go: `maxCaptureRetries = 5`. -/
def maxCaptureRetries : Nat := 5

/-- The event tags of client.go StreamEvents (`EventLive`,
`EventOffline`, `EventAudioReady`, `EventError`).  The constant
declarations live in a file outside the provided sources; the README
documents them as the strings "live", "offline", "audio_ready",
"error", modelled here as an enumeration. -/
inductive EventType where
  | live
  | offline
  | audioReady
  | eventError
deriving DecidableEq

/-- A StreamEvent as published by client.go: room id, event tag, whether
an `AudioStream` handle is attached (`EventAudioReady` only), whether an
error value is attached (`EventError` only), and the room title. -/
structure StreamEvent where
  roomID : RoomID
  type : EventType
  hasAudio : Bool
  hasError : Bool
  title : String
deriving DecidableEq

/-- client.go `publishStreamEvent`: same non-blocking fan-out as the
Monitor's `publishEvent`, over StreamEvent subscriber channels. -/
def publishStreamEvent (ev : StreamEvent) (subs : List (EventChan StreamEvent)) :
    List (EventChan StreamEvent) :=
  subs.map fun ch =>
    if ch.buf.length < ch.cap then { ch with buf := ch.buf ++ [ev] } else ch

/-- client.go `retryWait`: the backoff delay used before the next
attempt, in nanoseconds.  The code computes
`time.Duration(float64(baseRetryDelay) * math.Pow(2, float64(attempt)))`
and caps it at `maxRetryDelay`; for every attempt the loop can reach
(0..4, and indeed any attempt up to 32) the float64 arithmetic is exact,
so the computation is `baseRetryDelay * 2 ^ attempt` over ℕ with the
same cap. -/
def retryDelay (attempt : Nat) : Nat :=
  let delay := baseRetryDelay * 2 ^ attempt
  if delay > maxRetryDelay then maxRetryDelay else delay

/-- Behaviour of the external world during one attempt of the
`startCapture` retry loop: whether the capture context is already
cancelled at the top of the loop body, whether `GetStreamURL` succeeds,
whether `CaptureAudio` succeeds, and whether the context is cancelled
during the `retryWait` backoff (making it return false). -/
structure AttemptBehavior where
  cancelledAtStart : Bool
  resolveOk : Bool
  openOk : Bool
  waitCancelled : Bool

/-- The `EventError` StreamEvent published by `startCapture` on a failed
attempt: `StreamEvent{RoomID, Type: EventError, Error: err, Title}`. -/
def errEvent (room : RoomID) (title : String) : StreamEvent :=
  ⟨room, EventType.eventError, false, true, title⟩

/-- The `EventAudioReady` StreamEvent published by `startCapture` on
success, carrying the `AudioStream` handle. -/
def readyEvent (room : RoomID) (title : String) : StreamEvent :=
  ⟨room, EventType.audioReady, true, false, title⟩

/-- client.go `startCapture`, the bounded retry loop (lines 176-228),
parameterised by the per-attempt behaviour of the collaborators.
`attempt` is the loop counter, `fuel` is `maxCaptureRetries - attempt`
(the loop guard `attempt < maxCaptureRetries`).  Returns the list of
StreamEvents the loop publishes, in order, together with the number of
attempts actually entered.  Each iteration: an already-cancelled context
exits silently; a failed `GetStreamURL` or `CaptureAudio` publishes one
`EventError` and then either exits (backoff interrupted by
cancellation) or retries; success publishes one `EventAudioReady` and
returns.  Running out of fuel is the exhaustion exit: a log entry only,
no event. -/
def captureRun (room : RoomID) (title : String) (b : Nat → AttemptBehavior) :
    Nat → Nat → List StreamEvent × Nat
  | _, 0 => ([], 0)
  | attempt, fuel + 1 =>
    let a := b attempt
    if a.cancelledAtStart then ([], 0)
    else if a.resolveOk = false then
      let rest :=
        if a.waitCancelled then ([], 0)
        else captureRun room title b (attempt + 1) fuel
      (errEvent room title :: rest.1, rest.2 + 1)
    else if a.openOk = false then
      let rest :=
        if a.waitCancelled then ([], 0)
        else captureRun room title b (attempt + 1) fuel
      (errEvent room title :: rest.1, rest.2 + 1)
    else ([readyEvent room title], 1)

/-- client.go `startCapture` from its entry: the loop starts at
attempt 0 with the full retry budget. -/
def startCapture (room : RoomID) (title : String) (b : Nat → AttemptBehavior) :
    List StreamEvent × Nat :=
  captureRun room title b 0 maxCaptureRetries

/-- Ghost-instrumented state of the StreamClient's capture supervision
(client.go `captures` map guarded by `capturesMu`).  Each `startCapture`
goroutine is a task identified by a fresh natural number; `captures`
is the Go map from room id to the cancel func of the task registered
for it, `owner` records which room a task was started for, and `alive`
records whether a task's capture context is still uncancelled. -/
structure ClientTasks where
  captures : RoomID → Option Nat
  owner : Nat → RoomID
  alive : Nat → Bool
  nextTask : Nat

/-- client.go `NewStreamClient`: empty captures map, no tasks. -/
def initClientTasks : ClientTasks :=
  { captures := fun _ => none
    owner := fun _ => 0
    alive := fun _ => false
    nextTask := 0 }

/-- The locked section at the top of client.go `startCapture` (lines
165-174): under `capturesMu`, cancel the previous capture for the room
if any, then install the new task's cancel func in the map.  The new
task gets the fresh identity `nextTask`. -/
def installCapture (c : ClientTasks) (id : RoomID) : ClientTasks :=
  let afterCancel : Nat → Bool :=
    match c.captures id with
    | some prev => fun t => if t = prev then false else c.alive t
    | none => c.alive
  { captures := fun k => if k = id then some c.nextTask else c.captures k
    owner := fun t => if t = c.nextTask then id else c.owner t
    alive := fun t => if t = c.nextTask then true else afterCancel t
    nextTask := c.nextTask + 1 }

/-- The locked cancel-and-delete section used by `handleRoomEvent` (on
an offline event), `RemoveRoom`, and the shutdown path of client.go:
cancel the room's capture task, if any, and remove it from the map. -/
def cancelCapture (c : ClientTasks) (id : RoomID) : ClientTasks :=
  match c.captures id with
  | some t =>
    { c with
      alive := fun u => if u = t then false else c.alive u
      captures := fun k => if k = id then none else c.captures k }
  | none => c

/-- A capture task finishing on its own (success or retry exhaustion):
its goroutine ends, i.e. it is no longer a running retry loop; the map
entry is left behind, exactly as in client.go. -/
def taskDone (c : ClientTasks) (t : Nat) : ClientTasks :=
  { c with alive := fun u => if u = t then false else c.alive u }

/-- One atomic mutation of the capture-supervision state: each
constructor corresponds to one `capturesMu`-guarded critical section
(or a task ending) in client.go. -/
inductive TaskStep : ClientTasks → ClientTasks → Prop where
  | install (c : ClientTasks) (id : RoomID) : TaskStep c (installCapture c id)
  | cancel (c : ClientTasks) (id : RoomID) : TaskStep c (cancelCapture c id)
  | done (c : ClientTasks) (t : Nat) : TaskStep c (taskDone c t)

/-- States of the capture supervision reachable from the fresh client
by any interleaving of the critical sections. -/
inductive TaskReachable : ClientTasks → Prop where
  | init : TaskReachable initClientTasks
  | step {c c₂ : ClientTasks} : TaskReachable c → TaskStep c c₂ → TaskReachable c₂

/-- Supervision invariant: every live task is the one registered in the
map for its room; task identities are allocated below `nextTask`; and
every map entry points at a task owned by that room. -/
def GoodTasks (c : ClientTasks) : Prop :=
  (∀ t, c.alive t = true → c.captures (c.owner t) = some t) ∧
  (∀ t, c.nextTask ≤ t → c.alive t = false) ∧
  (∀ k t, c.captures k = some t → t < c.nextTask ∧ c.owner t = k)

/-- StreamClient state for the `Subscribe` entry point: the inner
Monitor and the StreamEvent subscriber list. -/
structure StreamClient where
  monitor : Monitor
  subs : List (EventChan StreamEvent)

/-- client.go `Subscribe`: allocate a StreamEvent channel of capacity
`streamEventBufSize`, append it to the subscriber list, call
`Monitor.Watch` with the same ids, propagate its error if non-nil, and
otherwise return the channel with a nil error. -/
def StreamClient.Subscribe (c : StreamClient) (roomIDs : List RoomID) :
    Except String (StreamClient × EventChan StreamEvent) :=
  let ch : EventChan StreamEvent := ⟨streamEventBufSize, []⟩
  let c₁ : StreamClient := { c with subs := c.subs ++ [ch] }
  match c₁.monitor.Watch roomIDs with
  | Except.error e => Except.error e
  | Except.ok (m₂, _roomCh) => Except.ok ({ c₁ with monitor := m₂ }, ch)

/-- C1: for every prior recorded value (hence for every position in any
sequence of probed states of one entity), `checkRoom` on a successful
probe emits a transition event exactly when the newly computed live
status differs from the last recorded value — with the first-observation
exception: no baseline and inactive emits nothing, no baseline and
active emits one "became active" event — and it records the new status
as the last known value. -/
theorem checkRoom_transition_iff (m : Monitor) (id : RoomID) (info : RoomInfo) :
    (Monitor.checkRoom m id (ProbeResult.ok info)).2 =
      (if specEmitsTransition (m.status id) (isLive info) = true
        then [RoomEvent.mk id (isLive info) info.title] else []) ∧
    (Monitor.checkRoom m id (ProbeResult.ok info)).1.status id =
      some (isLive info) := by
  unfold Monitor.checkRoom specEmitsTransition
  cases h : m.status id with
  | none => cases hl : isLive info <;> simp [h, hl]
  | some p => cases hl : isLive info <;> cases p <;> simp [h, hl]

/-- C8: a transiently failed probe (not a cancellation) makes the check
step a no-op: no event is emitted, the Monitor state — in particular the
last-known status — is unchanged, and the polling run continues with the
remaining ticks exactly as if the failed tick had not happened. -/
theorem checkRoom_transient_failure (m : Monitor) (id : RoomID)
    (rest : List ProbeResult) :
    Monitor.checkRoom m id (ProbeResult.fail false) = (m, []) ∧
    pollRun id m (ProbeResult.fail false :: rest) = pollRun id m rest := by
  refine ⟨rfl, ?_⟩
  simp [pollRun, Monitor.checkRoom]

/-- C3: the backoff delay is `min(baseRetryDelay * 2 ^ attempt,
maxRetryDelay)` for every attempt; the delays of attempts 0..4 are
exactly 2s, 4s, 8s, 16s, 32s; the delay sequence is non-decreasing; and
no delay ever exceeds 2 minutes. -/
theorem retryDelay_spec :
    (∀ n, retryDelay n = min (baseRetryDelay * 2 ^ n) maxRetryDelay) ∧
    retryDelay 0 = 2 * 1000000000 ∧
    retryDelay 1 = 4 * 1000000000 ∧
    retryDelay 2 = 8 * 1000000000 ∧
    retryDelay 3 = 16 * 1000000000 ∧
    retryDelay 4 = 32 * 1000000000 ∧
    (∀ n, retryDelay n ≤ retryDelay (n + 1)) ∧
    (∀ n, retryDelay n ≤ maxRetryDelay) := by
  have hmin : ∀ n, retryDelay n = min (baseRetryDelay * 2 ^ n) maxRetryDelay := by
    intro n
    unfold retryDelay
    rcases le_or_lt (baseRetryDelay * 2 ^ n) maxRetryDelay with h | h
    · simp [Nat.not_lt.mpr h, Nat.min_eq_left h]
    · simp [h, Nat.min_eq_right (Nat.le_of_lt h)]
  refine ⟨hmin, by decide, by decide, by decide, by decide, by decide, ?_, ?_⟩
  · intro n
    rw [hmin, hmin]
    exact min_le_min
      (Nat.mul_le_mul_left _ (Nat.pow_le_pow_right (by decide) (Nat.le_succ n)))
      (Nat.le_refl _)
  · intro n
    rw [hmin]
    exact Nat.min_le_right _ _

/-- C10: `Monitor.Watch` and `StreamClient.Subscribe` always return a
nil error: for every monitor state, client state and id list, both
entry points produce a channel and `nil`; the error-propagation branch
of `Subscribe` is unreachable. -/
theorem watch_subscribe_nil_error (m : Monitor) (c : StreamClient)
    (ids ids₂ : List RoomID) :
    (∃ r, Monitor.Watch m ids = Except.ok r) ∧
    (∃ r, StreamClient.Subscribe c ids₂ = Except.ok r) :=
  ⟨⟨_, rfl⟩, ⟨_, rfl⟩⟩

lemma forall₂_map_self {α β : Type} (f : α → β) (l : List α) :
    List.Forall₂ (fun s t => t = f s) l (l.map f) := by
  induction l with
  | nil => exact List.Forall₂.nil
  | cons a l ih => exact List.Forall₂.cons rfl ih

/-- C7: both fan-out routines (`publishEvent` of the Monitor and
`publishStreamEvent` of the StreamClient) are total functions of the
subscriber list — they always complete, never waiting on a channel —
and relate each subscriber channel pointwise to its updated version:
a channel with free capacity receives a copy of the event appended to
its buffer, while a full channel is returned unchanged (the event is
dropped for that subscriber only); the subscriber list keeps its
length, so no subscriber is skipped. -/
theorem publish_nonblocking (ev : RoomEvent) (sev : StreamEvent)
    (subs : List (EventChan RoomEvent)) (subs₂ : List (EventChan StreamEvent)) :
    List.Forall₂
      (fun s t => t =
        (if s.buf.length < s.cap then { s with buf := s.buf ++ [ev] } else s))
      subs (publishEvent ev subs) ∧
    List.Forall₂
      (fun s t => t =
        (if s.buf.length < s.cap then { s with buf := s.buf ++ [sev] } else s))
      subs₂ (publishStreamEvent sev subs₂) ∧
    (publishEvent ev subs).length = subs.length ∧
    (publishStreamEvent sev subs₂).length = subs₂.length :=
  ⟨forall₂_map_self _ subs, forall₂_map_self _ subs₂,
    List.length_map _ _, List.length_map _ _⟩

/-- C4 counterexample: an id added to a not-yet-started Monitor is
dropped, not queued.  Concretely, `AddRoom 1` on a fresh monitor leaves
the state bit-for-bit unchanged, and the next `Watch` call (here with
an empty id list) starts no polling task for room 1 — contradicting the
claim that the id is queued so that the next watch begins polling it. -/
theorem addRoom_unstarted_dropped_cex :
    Monitor.AddRoom initialMonitor 1 = initialMonitor ∧
    (Monitor.Watch (Monitor.AddRoom initialMonitor 1) []).toOption.map
      (fun r => r.1.rooms 1) = some false := by
  constructor
  · rfl
  · rfl

/-- C4 amended: `AddRoom` is idempotent — on an id that is already
watched it is a silent no-op leaving the Monitor unchanged; on a
monitor that has not been started it is also a no-op (the id is not
queued; only ids passed to `Watch` get polling tasks); and on a
started monitor with a parent context it immediately starts a polling
task for the id. -/
theorem addRoom_spec (m : Monitor) (id : RoomID) :
    (m.rooms id = true → Monitor.AddRoom m id = m) ∧
    (m.started = false → Monitor.AddRoom m id = m) ∧
    (m.rooms id = false → m.started = true → m.hasParentCtx = true →
      Monitor.AddRoom m id = Monitor.startRoom m id ∧
        (Monitor.AddRoom m id).rooms id = true) := by
  refine ⟨?_, ?_, ?_⟩
  · intro h
    simp [Monitor.AddRoom, h]
  · intro h
    unfold Monitor.AddRoom
    rcases hr : m.rooms id <;> simp [h]
  · intro hr hs hc
    have h1 : Monitor.AddRoom m id = Monitor.startRoom m id := by
      simp [Monitor.AddRoom, hr, hs, hc]
    refine ⟨h1, ?_⟩
    rw [h1]
    simp [Monitor.startRoom]

/-- Witness for the amended C4 theorem at concrete inputs: adding room 1
to a monitor already watching room 1 changes nothing, and adding room 2
to a fresh unstarted monitor changes nothing. -/
theorem addRoom_spec_witness :
    Monitor.AddRoom (Monitor.startRoom initialMonitor 1) 1 =
      Monitor.startRoom initialMonitor 1 ∧
    Monitor.AddRoom initialMonitor 2 = initialMonitor :=
  ⟨(addRoom_spec (Monitor.startRoom initialMonitor 1) 1).1 (by simp [Monitor.startRoom]),
    (addRoom_spec initialMonitor 2).2.1 rfl⟩

lemma addRoom_status (m : Monitor) (id : RoomID) :
    (Monitor.AddRoom m id).status = m.status := by
  unfold Monitor.AddRoom
  rcases h : m.rooms id <;> rcases hs : m.started && m.hasParentCtx <;>
    simp [Monitor.startRoom]

/-- C9: removing a watched entity discards its last-known status, so
after re-adding it the very next probe that reports inactive emits no
event (fresh-start behaviour restored); and `RemoveRoom` on an id that
is not watched leaves the Monitor unchanged. -/
theorem removeRoom_fresh_start (m m₂ : Monitor) (id id₂ : RoomID)
    (info : RoomInfo) (hw : m.rooms id = true) (hl : isLive info = false)
    (h₂ : m₂.rooms id₂ = false) :
    (Monitor.checkRoom (Monitor.AddRoom (Monitor.RemoveRoom m id) id) id
      (ProbeResult.ok info)).2 = [] ∧
    Monitor.RemoveRoom m₂ id₂ = m₂ := by
  constructor
  · have hstat :
        (Monitor.AddRoom (Monitor.RemoveRoom m id) id).status id = none := by
      rw [addRoom_status]
      simp [Monitor.RemoveRoom, hw]
    simp [Monitor.checkRoom, hstat, hl]
  · simp [Monitor.RemoveRoom, h₂]

/-- Witness for C9 at concrete inputs: room 1 is watched by a fresh
monitor, removed, re-added; the next offline probe emits nothing.  And
removing the unwatched room 2 from a fresh monitor changes nothing. -/
theorem removeRoom_fresh_start_witness :
    (Monitor.checkRoom
        (Monitor.AddRoom (Monitor.RemoveRoom (Monitor.startRoom initialMonitor 1) 1) 1) 1
        (ProbeResult.ok ⟨1, 0, "t"⟩)).2 = [] ∧
    Monitor.RemoveRoom initialMonitor 2 = initialMonitor :=
  removeRoom_fresh_start (Monitor.startRoom initialMonitor 1) initialMonitor
    1 2 ⟨1, 0, "t"⟩ (by simp [Monitor.startRoom, initialMonitor])
    (by decide) rfl

lemma captureRun_all_fail (room : RoomID) (title : String)
    (b : Nat → AttemptBehavior) :
    ∀ fuel attempt,
      (∀ i, attempt ≤ i → i < attempt + fuel →
        (b i).cancelledAtStart = false ∧
        ((b i).resolveOk = false ∨ (b i).openOk = false) ∧
        (b i).waitCancelled = false) →
      captureRun room title b attempt fuel =
        (List.replicate fuel (errEvent room title), fuel) := by
  intro fuel
  induction fuel with
  | zero => intro attempt h; rfl
  | succ f ih =>
    intro attempt h
    obtain ⟨hc, hfail, hwait⟩ := h attempt (Nat.le_refl _) (by omega)
    have hrest := ih (attempt + 1) (fun i h1 h2 => h i (by omega) (by omega))
    rcases hfail with hr | ho
    · simp [captureRun, hc, hr, hwait, hrest, List.replicate_succ]
    · cases hres : (b attempt).resolveOk with
      | false => simp [captureRun, hc, hres, hwait, hrest, List.replicate_succ]
      | true => simp [captureRun, hc, hres, ho, hwait, hrest, List.replicate_succ]

lemma captureRun_success_after (room : RoomID) (title : String)
    (b : Nat → AttemptBehavior) :
    ∀ k fuel attempt, k < fuel →
      (∀ i, attempt ≤ i → i < attempt + k →
        (b i).cancelledAtStart = false ∧ (b i).resolveOk = false ∧
        (b i).waitCancelled = false) →
      (b (attempt + k)).cancelledAtStart = false →
      (b (attempt + k)).resolveOk = true →
      (b (attempt + k)).openOk = true →
      captureRun room title b attempt fuel =
        (List.replicate k (errEvent room title) ++ [readyEvent room title],
          k + 1) := by
  intro k
  induction k with
  | zero =>
    intro fuel attempt hk _ hc hr ho
    obtain ⟨f, rfl⟩ : ∃ f, fuel = f + 1 := ⟨fuel - 1, by omega⟩
    simp only [Nat.add_zero] at hc hr ho
    simp [captureRun, hc, hr, ho]
  | succ k ih =>
    intro fuel attempt hk hfail hc hr ho
    obtain ⟨f, rfl⟩ : ∃ f, fuel = f + 1 := ⟨fuel - 1, by omega⟩
    obtain ⟨hc0, hr0, hw0⟩ := hfail attempt (Nat.le_refl _) (by omega)
    have hidx : attempt + 1 + k = attempt + (k + 1) := by omega
    have hrest := ih f (attempt + 1) (by omega)
      (fun i h1 h2 => hfail i (by omega) (by omega))
      (by rw [hidx]; exact hc) (by rw [hidx]; exact hr) (by rw [hidx]; exact ho)
    simp [captureRun, hc0, hr0, hw0, hrest, List.replicate_succ]

lemma captureRun_attempts_le (room : RoomID) (title : String)
    (b : Nat → AttemptBehavior) :
    ∀ fuel attempt, (captureRun room title b attempt fuel).2 ≤ fuel := by
  intro fuel
  induction fuel with
  | zero => intro attempt; simp [captureRun]
  | succ f ih =>
    intro attempt
    cases hc : (b attempt).cancelledAtStart with
    | true => simp [captureRun, hc]
    | false =>
      cases hr : (b attempt).resolveOk with
      | false =>
        cases hw : (b attempt).waitCancelled with
        | true => simp [captureRun, hc, hr, hw]
        | false =>
          have := ih (attempt + 1)
          simp only [captureRun, hc, hr, hw]
          simp
          omega
      | true =>
        cases ho : (b attempt).openOk with
        | false =>
          cases hw : (b attempt).waitCancelled with
          | true => simp [captureRun, hc, hr, ho, hw]
          | false =>
            have := ih (attempt + 1)
            simp only [captureRun, hc, hr, ho, hw]
            simp
            omega
        | true => simp [captureRun, hc, hr, ho]

/-- C5: a run of the `startCapture` retry loop in which `GetStreamURL`
fails on the first k attempts (k < 5, never cancelled, backoff never
interrupted) and then both `GetStreamURL` and `CaptureAudio` succeed on
attempt k publishes exactly k `EventError` events followed by exactly
one `EventAudioReady` event, in that order, and terminates after
exactly k + 1 attempts with no further events. -/
theorem capture_success_trace (room : RoomID) (title : String)
    (b : Nat → AttemptBehavior) (k : Nat) (hk : k < maxCaptureRetries)
    (hfail : ∀ i, i < k →
      (b i).cancelledAtStart = false ∧ (b i).resolveOk = false ∧
      (b i).waitCancelled = false)
    (hc : (b k).cancelledAtStart = false)
    (hr : (b k).resolveOk = true)
    (ho : (b k).openOk = true) :
    startCapture room title b =
      (List.replicate k (errEvent room title) ++ [readyEvent room title],
        k + 1) := by
  have h := captureRun_success_after room title b k maxCaptureRetries 0 hk
    (fun i h1 h2 => hfail i (by omega))
    (by simpa using hc) (by simpa using hr) (by simpa using ho)
  simpa [startCapture] using h

/-- Witness for C5 at concrete inputs: room 100, title "Demo", two
resolve failures then success, giving two `EventError`s then one
`EventAudioReady` in three attempts. -/
theorem capture_success_trace_witness :
    startCapture 100 "Demo"
      (fun i => if i < 2 then ⟨false, false, true, false⟩
        else ⟨false, true, true, false⟩) =
      (List.replicate 2 (errEvent 100 "Demo") ++ [readyEvent 100 "Demo"], 3) :=
  capture_success_trace 100 "Demo" _ 2 (by decide)
    (fun i hi => by simp [hi]) (by decide) (by decide) (by decide)

/-- C6: the `startCapture` retry loop performs at most
`maxCaptureRetries` (= 5) attempts for every possible behaviour of the
collaborators; and when all 5 attempts fail without cancellation it
terminates after publishing exactly one `EventError` per failed attempt
— five in total — and nothing after the last one (no terminal event). -/
theorem capture_retry_exhaustion (room : RoomID) (title : String)
    (b : Nat → AttemptBehavior)
    (hfail : ∀ i, i < maxCaptureRetries →
      (b i).cancelledAtStart = false ∧
      ((b i).resolveOk = false ∨ (b i).openOk = false) ∧
      (b i).waitCancelled = false) :
    startCapture room title b =
      (List.replicate maxCaptureRetries (errEvent room title),
        maxCaptureRetries) ∧
    ∀ (room₂ : RoomID) (title₂ : String) (b₂ : Nat → AttemptBehavior),
      (startCapture room₂ title₂ b₂).2 ≤ maxCaptureRetries := by
  constructor
  · have h := captureRun_all_fail room title b maxCaptureRetries 0
      (fun i h1 h2 => hfail i (by omega))
    simpa [startCapture] using h
  · intro room₂ title₂ b₂
    exact captureRun_attempts_le room₂ title₂ b₂ maxCaptureRetries 0

/-- Witness for C6 at concrete inputs: every attempt fails to resolve
the stream URL, yielding exactly five `EventError`s in five attempts. -/
theorem capture_retry_exhaustion_witness :
    startCapture 100 "Demo" (fun _ => ⟨false, false, false, false⟩) =
      (List.replicate 5 (errEvent 100 "Demo"), 5) :=
  (capture_retry_exhaustion 100 "Demo" _
    (fun _ _ => ⟨rfl, Or.inl rfl, rfl⟩)).1

lemma goodTasks_init : GoodTasks initClientTasks := by
  refine ⟨fun t h => ?_, fun t h => rfl, fun k t h => ?_⟩
  · simp [initClientTasks] at h
  · simp [initClientTasks] at h

lemma goodTasks_install (c : ClientTasks) (id : RoomID) (hg : GoodTasks c) :
    GoodTasks (installCapture c id) := by
  obtain ⟨h1, h2, h3⟩ := hg
  refine ⟨?_, ?_, ?_⟩
  · intro t ht
    rcases hcap : c.captures id with _ | prev
    · simp [installCapture, hcap] at ht ⊢
      by_cases hte : t = c.nextTask
      · simp [hte]
      · simp [hte] at ht
        have hown := h1 t ht
        by_cases howid : c.owner t = id
        · rw [howid, hcap] at hown
          cases hown
        · simp [hte, howid, hown]
    · simp [installCapture, hcap] at ht ⊢
      by_cases hte : t = c.nextTask
      · simp [hte]
      · simp [hte] at ht
        by_cases htp : t = prev
        · simp [htp] at ht
        · simp [htp] at ht
          have hown := h1 t ht
          by_cases howid : c.owner t = id
          · rw [howid, hcap] at hown
            injection hown with he
            exact absurd he.symm htp
          · simp [hte, howid, hown]
  · intro t ht
    have hte : t ≠ c.nextTask := by
      simp [installCapture] at ht
      omega
    have hta : c.alive t = false := by
      apply h2
      simp [installCapture] at ht
      omega
    rcases hcap : c.captures id with _ | prev
    · simp [installCapture, hcap, hte, hta]
    · by_cases htp : t = prev
      · subst htp
        simp [installCapture, hcap, hte]
      · simp [installCapture, hcap, hte, htp, hta]
  · intro k t hkt
    rcases hcap : c.captures id with _ | prev <;>
      simp [installCapture, hcap] at hkt ⊢
    · by_cases hk : k = id
      · simp [hk] at hkt
        refine ⟨by omega, ?_⟩
        simp [← hkt, hk]
      · simp [hk] at hkt
        obtain ⟨hlt, hown⟩ := h3 k t hkt
        have hte : t ≠ c.nextTask := by omega
        exact ⟨by omega, by simp [hte, hown]⟩
    · by_cases hk : k = id
      · simp [hk] at hkt
        refine ⟨by omega, ?_⟩
        simp [← hkt, hk]
      · simp [hk] at hkt
        obtain ⟨hlt, hown⟩ := h3 k t hkt
        have hte : t ≠ c.nextTask := by omega
        exact ⟨by omega, by simp [hte, hown]⟩

lemma goodTasks_cancel (c : ClientTasks) (id : RoomID) (hg : GoodTasks c) :
    GoodTasks (cancelCapture c id) := by
  obtain ⟨h1, h2, h3⟩ := hg
  rcases hcap : c.captures id with _ | t0
  · refine ⟨?_, ?_, ?_⟩ <;> simp only [cancelCapture, hcap]
    · exact h1
    · exact h2
    · exact h3
  · refine ⟨?_, ?_, ?_⟩
    · intro t ht
      simp [cancelCapture, hcap] at ht ⊢
      by_cases htt : t = t0
      · simp [htt] at ht
      · simp [htt] at ht
        have hown := h1 t ht
        by_cases howid : c.owner t = id
        · rw [howid, hcap] at hown
          injection hown with he
          exact absurd he.symm htt
        · simp [howid, hown]
    · intro t ht
      simp [cancelCapture, hcap] at ht ⊢
      by_cases htt : t = t0 <;> simp [htt, h2 t ht]
    · intro k t hkt
      simp [cancelCapture, hcap] at hkt ⊢
      by_cases hk : k = id
      · simp [hk] at hkt
      · simp [hk] at hkt
        exact h3 k t hkt

lemma goodTasks_done (c : ClientTasks) (t0 : Nat) (hg : GoodTasks c) :
    GoodTasks (taskDone c t0) := by
  obtain ⟨h1, h2, h3⟩ := hg
  refine ⟨?_, ?_, ?_⟩
  · intro t ht
    simp [taskDone] at ht ⊢
    by_cases htt : t = t0
    · simp [htt] at ht
    · simp [htt] at ht
      exact h1 t ht
  · intro t ht
    simp [taskDone]
    by_cases htt : t = t0 <;> simp [htt, h2 t ht]
  · intro k t hkt
    exact h3 k t hkt

lemma taskReachable_good {c : ClientTasks} (h : TaskReachable c) :
    GoodTasks c := by
  induction h with
  | init => exact goodTasks_init
  | step hr hs ih =>
    cases hs with
    | install id => exact goodTasks_install _ id ih
    | cancel id => exact goodTasks_cancel _ id ih
    | done t => exact goodTasks_done _ t ih

/-- C2: in every state of the capture supervision reachable by the
locked critical sections of client.go, each entity has at most one live
ResourceTask (two live tasks started for the same room are the same
task), and installing a new capture for a room first cancels whatever
task was registered for that room — the previously registered task is
dead after the install — and then registers the fresh task in the map. -/
theorem dispatcher_single_capture (c : ClientTasks) (h : TaskReachable c) :
    (∀ t₁ t₂, c.alive t₁ = true → c.alive t₂ = true →
      c.owner t₁ = c.owner t₂ → t₁ = t₂) ∧
    (∀ id t, c.captures id = some t →
      (installCapture c id).alive t = false ∧
      (installCapture c id).captures id = some c.nextTask) := by
  obtain ⟨h1, h2, h3⟩ := taskReachable_good h
  constructor
  · intro t₁ t₂ ha1 ha2 how
    have e1 := h1 t₁ ha1
    have e2 := h1 t₂ ha2
    rw [how] at e1
    rw [e1] at e2
    exact Option.some.inj e2
  · intro id t hcap
    have hlt := (h3 id t hcap).1
    have hte : t ≠ c.nextTask := by omega
    constructor
    · simp [installCapture, hcap, hte]
    · simp [installCapture]

/-- Witness for C2 at concrete inputs: the state reached by installing a
capture for room 7 twice is reachable, and a third install for room 7
kills the currently registered task (task 1). -/
theorem dispatcher_single_capture_witness :
    TaskReachable (installCapture (installCapture initClientTasks 7) 7) ∧
    (installCapture (installCapture (installCapture initClientTasks 7) 7)
      7).alive 1 = false :=
  have hr : TaskReachable (installCapture (installCapture initClientTasks 7) 7) :=
    TaskReachable.step
      (TaskReachable.step TaskReachable.init (TaskStep.install initClientTasks 7))
      (TaskStep.install (installCapture initClientTasks 7) 7)
  ⟨hr, ((dispatcher_single_capture _ hr).2 7 1 (by decide)).1⟩
